import Mathlib

/-!
Verification of the Handler Resolution & Registration Engine of
macos-apphandlers-bridge.

The repository ships the public contract in `src/bridge.h` (return codes,
the `AppInfo` and `DocumentType` records, and the operation signatures).
The resolution, registration and enumeration logic behind those signatures
is not in `src/`; every behavioural definition below is therefore modelled
from the specification (sections 3, 4.1-4.5, 6 and 7 of the design
document) and is marked as such in its doc comment.  The return-code
constants and record shapes are transcribed from `src/bridge.h`.
-/

namespace AppHandlers

/-! ### Return codes, transcribed from src/bridge.h lines 4-11 -/

def BRIDGE_OK : Int := 0

def BRIDGE_ERROR_INVALID_APP : Int := -1

def BRIDGE_ERROR_INVALID_UTI : Int := -2

def BRIDGE_ERROR_INVALID_SCHEME : Int := -3

def BRIDGE_ERROR_SYSTEM : Int := -4

def BRIDGE_ERROR_USER_DECLINED : Int := -5

def BRIDGE_ERROR_NOT_FOUND : Int := -6

/-- The six failure codes of `src/bridge.h`, in declaration order. -/
def errCodeList : List Int :=
  [BRIDGE_ERROR_INVALID_APP, BRIDGE_ERROR_INVALID_UTI, BRIDGE_ERROR_INVALID_SCHEME,
   BRIDGE_ERROR_SYSTEM, BRIDGE_ERROR_USER_DECLINED, BRIDGE_ERROR_NOT_FOUND]

/-- Numeric return code of an operation result: `BRIDGE_OK` for success,
the carried error code otherwise (the C interface returns exactly one
`int` and writes payloads through out-parameters). -/
def retCode {α : Type} : Except Int α → Int
  | .ok _ => BRIDGE_OK
  | .error c => c

instance {ε α : Type} [DecidableEq ε] [DecidableEq α] : DecidableEq (Except ε α) := fun a b =>
  match a, b with
  | .ok x, .ok y =>
      if h : x = y then isTrue (by rw [h]) else isFalse (by intro hc; cases hc; exact h rfl)
  | .error x, .error y =>
      if h : x = y then isTrue (by rw [h]) else isFalse (by intro hc; cases hc; exact h rfl)
  | .ok _, .error _ => isFalse (by intro hc; cases hc)
  | .error _, .ok _ => isFalse (by intro hc; cases hc)

/-! ### Handler rank -/

/-- Modelled from the spec: `handlerRank ∈ {Owner, Default, Alternate, None}`,
kept apart from the absent ("unspecified") state by wrapping in `Option`
(spec section 3 and design note on the unspecified rank state). -/
inductive Rank where
  | owner
  | defaultRank
  | alternate
  | noneRank
deriving DecidableEq

/-- Modelled from the spec: the fixed rank ordering
Owner > Default > Alternate > None > unspecified (spec section 3,
invariants). Encoded as a numeric height. -/
def rankVal : Option Rank → Nat
  | some .owner => 4
  | some .defaultRank => 3
  | some .alternate => 2
  | some .noneRank => 1
  | none => 0

/-! ### String normalisation helpers -/

/-- Modelled from the spec: case normalisation of an extension token
("a case-insensitive token", spec section 3), as character-wise lowering. -/
def lowerData (s : String) : List Char := s.data.map Char.toLower

/-- Modelled from the spec: case-normalised string. -/
def lowerStr (s : String) : String := ⟨lowerData s⟩

/-- Modelled from the spec: removal of a leading separator character from
a character sequence. -/
def stripDotData : List Char → List Char
  | c :: rest => if c = '.' then rest else c :: rest
  | [] => []

/-- Modelled from the spec: "Strips a leading separator if present"
(spec section 4.1). -/
def stripDot (s : String) : String := ⟨stripDotData s.data⟩

/-- Modelled from the spec: extension normalisation before lookup —
leading-separator stripping then case normalisation (spec section 4.1). -/
def normalizeExt (e : String) : String := lowerStr (stripDot e)

/-- Modelled from the spec: "empty or whitespace-only inputs are rejected
before any external lookup" (spec section 3, invariants). A target is
valid when it has at least one non-whitespace character. -/
def validTarget (s : String) : Bool := s.data.any (fun c => !c.isWhitespace)

/-! ### External type-identifier service -/

/-- Modelled from the spec: the external type service is a table of
type-identifier declarations, each naming the extensions the type
declares ("one type identifier may declare several extensions", spec
section 3); extension-to-type resolution is the reverse reading of the
same table ("one extension may resolve to several candidate type
identifiers"). Lookup of the type identifiers for a normalised
extension. -/
def lookupUTIs (db : List (String × List String)) (e : String) : List String :=
  (db.filter (fun p => decide (e ∈ p.2.map normalizeExt))).map (fun p => p.1)

/-- Modelled from the spec: lookup of the (normalised) extensions a type
identifier declares. -/
def lookupExts (db : List (String × List String)) (t : String) : List String :=
  (db.filter (fun p => decide (p.1 = t))).flatMap (fun p => p.2.map normalizeExt)

/-! ### Application records (shapes from src/bridge.h lines 13-32) -/

/-- Application information record, from `AppInfo` in src/bridge.h. -/
structure AppInfo where
  name : String
  path : String
  bundleID : String
deriving DecidableEq

/-- Document type declaration record, from `DocumentType` in src/bridge.h;
the `handlerRank` field is `NULL`-able in the C record and hence an
`Option` here. -/
structure DocumentType where
  typeName : String
  role : String
  handlerRank : Option Rank
  utis : List String
  extensions : List String
  isPackage : Bool
deriving DecidableEq

/-- Modelled from the spec: what an application declares about the URL
schemes it can handle. The C header carries no scheme-declaration record;
the spec (section 3, HandlerCandidate) joins "an ApplicationDescriptor's
declarations against a target TypeIdentifier or Scheme" and a candidate
carries a role and a handler rank, so a scheme declaration is modelled
with the same role and rank fields. -/
structure SchemeDecl where
  schemes : List String
  role : String
  handlerRank : Option Rank
deriving DecidableEq

/-- Modelled from the spec: an installed application — its descriptor
plus its ordered declaration sequences (spec section 3: "An application
owns an ordered sequence of these declarations (insertion order =
declaration order)"). -/
structure App where
  info : AppInfo
  docTypes : List DocumentType
  schemeDecls : List SchemeDecl
deriving DecidableEq

/-- Modelled from the spec: the part of a declaration a HandlerCandidate
retains after matching — role and handler rank (spec section 3). -/
structure RankedDecl where
  role : String
  handlerRank : Option Rank
deriving DecidableEq

/-- Modelled from the spec: a derived handler candidate
`{ application, role, handlerRank }` (spec section 3); the application
name and path are carried for the ordering contract. -/
structure HandlerCandidate where
  name : String
  path : String
  role : String
  handlerRank : Option Rank
deriving DecidableEq

/-! ### Candidate matching -/

/-- Modelled from the spec: a declaration matches a target type identifier
when it includes a UTI equal to, or conforming to, the target (spec
section 4.3 step 1); `conf` is the external conformance relation. -/
def matchesUTI (conf : String → String → Bool) (target : String) (d : DocumentType) : Bool :=
  d.utis.any (fun u => u == target || conf u target)

/-- Modelled from the spec: the ordered matching declarations of one
application against a target type identifier, reduced to role and rank. -/
def utiDeclsOf (conf : String → String → Bool) (target : String) (a : App) : List RankedDecl :=
  (a.docTypes.filter (matchesUTI conf target)).map (fun d => ⟨d.role, d.handlerRank⟩)

/-- Modelled from the spec: the ordered matching declarations of one
application against a target scheme — exact scheme match, schemes have no
hierarchy (spec section 4.3 step 1). -/
def schemeDeclsOf (target : String) (a : App) : List RankedDecl :=
  (a.schemeDecls.filter (fun sd => sd.schemes.contains target)).map
    (fun sd => ⟨sd.role, sd.handlerRank⟩)

/-! ### Deduplication and ordering (spec section 4.3 steps 2-3) -/

/-- Modelled from the spec: the highest handler rank among a list of
matching declarations. -/
def bestRankVal (ds : List RankedDecl) : Nat :=
  ds.foldr (fun d m => max (rankVal d.handlerRank) m) 0

/-- Modelled from the spec: "keep the declaration with the highest
handlerRank (ties broken by declaration order, first wins)" (spec
section 4.3 step 2) — the first declaration achieving the highest rank. -/
def selectDecl (ds : List RankedDecl) : Option RankedDecl :=
  ds.find? (fun d => rankVal d.handlerRank == bestRankVal ds)

/-- Modelled from the spec: the single HandlerCandidate one application
contributes for a target, if any of its declarations match. -/
def candidateFor (declsOf : App → List RankedDecl) (a : App) : Option HandlerCandidate :=
  (selectDecl (declsOf a)).map (fun d => ⟨a.info.name, a.info.path, d.role, d.handlerRank⟩)

/-- Modelled from the spec: the candidate list before deduplication,
one entry per application with a matching declaration (spec section 4.3
step 1). -/
def rawCandidates (declsOf : App → List RankedDecl) (apps : List App) : List HandlerCandidate :=
  apps.filterMap (candidateFor declsOf)

/-- Modelled from the spec: "candidates are deduplicated by application
path" (spec section 4.3 step 2), keeping the first entry for each path. -/
def dedupByPathAux (seen : List String) : List HandlerCandidate → List HandlerCandidate
  | [] => []
  | c :: rest =>
      if c.path ∈ seen then dedupByPathAux seen rest
      else c :: dedupByPathAux (c.path :: seen) rest

/-- Modelled from the spec: deduplication by application path. -/
def dedupByPath (l : List HandlerCandidate) : List HandlerCandidate :=
  dedupByPathAux [] l

/-- Modelled from the spec: the enumeration order — "sort by handlerRank
descending, then by application name case-insensitively, then by path"
(spec section 4.3 step 3; the path tie-break is the spec's deterministic
design decision). -/
def candLE (a b : HandlerCandidate) : Prop :=
  rankVal b.handlerRank < rankVal a.handlerRank ∨
  (rankVal a.handlerRank = rankVal b.handlerRank ∧
    (lowerData a.name < lowerData b.name ∨
      (lowerData a.name = lowerData b.name ∧ a.path.data ≤ b.path.data)))

instance : DecidableRel candLE := fun a b => by
  unfold candLE; infer_instance

instance : IsTotal HandlerCandidate candLE where
  total a b := by
    rcases lt_trichotomy (rankVal a.handlerRank) (rankVal b.handlerRank) with h | h | h
    · exact Or.inr (Or.inl h)
    · rcases lt_trichotomy (lowerData a.name) (lowerData b.name) with h2 | h2 | h2
      · exact Or.inl (Or.inr ⟨h, Or.inl h2⟩)
      · rcases le_total a.path.data b.path.data with h3 | h3
        · exact Or.inl (Or.inr ⟨h, Or.inr ⟨h2, h3⟩⟩)
        · exact Or.inr (Or.inr ⟨h.symm, Or.inr ⟨h2.symm, h3⟩⟩)
      · exact Or.inr (Or.inr ⟨h.symm, Or.inl h2⟩)
    · exact Or.inl (Or.inl h)

instance : IsTrans HandlerCandidate candLE where
  trans a b c hab hbc := by
    rcases hab with h | ⟨h1, hab⟩
    · rcases hbc with h' | ⟨h1', _⟩
      · exact Or.inl (h'.trans h)
      · exact Or.inl (by omega)
    · rcases hbc with h' | ⟨h1', hbc⟩
      · exact Or.inl (by omega)
      · refine Or.inr ⟨h1.trans h1', ?_⟩
        rcases hab with h2 | ⟨h2, h3⟩
        · rcases hbc with h2' | ⟨h2', _⟩
          · exact Or.inl (h2.trans h2')
          · exact Or.inl (h2' ▸ h2)
        · rcases hbc with h2' | ⟨h2', h3'⟩
          · exact Or.inl (by rw [h2]; exact h2')
          · exact Or.inr ⟨h2.trans h2', h3.trans h3'⟩

/-- Modelled from the spec: deduplicated candidate list in enumeration
order (spec section 4.3 steps 1-3). -/
def sortedCandidates (declsOf : App → List RankedDecl) (apps : List App) :
    List HandlerCandidate :=
  (dedupByPath (rawCandidates declsOf apps)).insertionSort candLE

/-! ### The system state and the external registry -/

/-- Modelled from the spec: the state the engine works against — the
external type-declaration table, the external conformance relation, the
installed applications, and the external DefaultBinding maps for type
identifiers and for schemes (spec sections 2 and 3). -/
structure SysState where
  typeDecls : List (String × List String)
  conf : String → String → Bool
  apps : List App
  utiBinding : String → Option String
  schemeBinding : String → Option String

/-- Modelled from the spec: the outcome of submitting a write to the
external registry (spec section 4.4 steps 4-6). Either the registry call
itself fails, or the call is accepted and the registry afterwards holds
some binding map — possibly one in which the write was silently
ignored. -/
inductive RegOutcome where
  | failed
  | accepted (newBinding : String → Option String)

/-- Modelled from the spec: candidate list for a type identifier, in
enumeration order. -/
def utiCandidates (sys : SysState) (uti : String) : List HandlerCandidate :=
  sortedCandidates (utiDeclsOf sys.conf uti) sys.apps

/-- Modelled from the spec: candidate list for a scheme, in enumeration
order. -/
def schemeCandidates (sys : SysState) (scheme : String) : List HandlerCandidate :=
  sortedCandidates (schemeDeclsOf scheme) sys.apps

/-! ### Public operations (signatures from src/bridge.h, behaviour
modelled from spec sections 4.3-4.5, 6 and 7) -/

/-- Modelled from the spec: `GetDefaultAppForUTI` (src/bridge.h line 42).
The default is read from the external DefaultBinding; a binding naming an
application absent from the candidate list surfaces NotFound; with no
binding the highest-ranked candidate is the effective default (spec
section 4.3 step 4). -/
def GetDefaultAppForUTI (sys : SysState) (uti : String) : Except Int String :=
  if validTarget uti then
    match sys.utiBinding uti with
    | some p =>
        if p ∈ (utiCandidates sys uti).map HandlerCandidate.path then .ok p
        else .error BRIDGE_ERROR_NOT_FOUND
    | none =>
        match utiCandidates sys uti with
        | [] => .error BRIDGE_ERROR_NOT_FOUND
        | c :: _ => .ok c.path
  else .error BRIDGE_ERROR_INVALID_UTI

/-- Modelled from the spec: `GetDefaultAppForScheme` (src/bridge.h line 52),
scheme analogue of the type-identifier default resolution. -/
def GetDefaultAppForScheme (sys : SysState) (scheme : String) : Except Int String :=
  if validTarget scheme then
    match sys.schemeBinding scheme with
    | some p =>
        if p ∈ (schemeCandidates sys scheme).map HandlerCandidate.path then .ok p
        else .error BRIDGE_ERROR_NOT_FOUND
    | none =>
        match schemeCandidates sys scheme with
        | [] => .error BRIDGE_ERROR_NOT_FOUND
        | c :: _ => .ok c.path
  else .error BRIDGE_ERROR_INVALID_SCHEME

/-- Modelled from the spec: `SetDefaultForUTI` (src/bridge.h line 62),
the registration transactor of spec section 4.4: resolve the application,
validate the target, validate capability, submit the write, read back and
report UserDeclined when the registry silently ignored the write. Returns
the result together with the post-call system state (the registry binding
is whatever the accepted write produced). -/
def SetDefaultForUTI (sys : SysState) (w : RegOutcome) (appPath uti : String) :
    Except Int Unit × SysState :=
  match sys.apps.find? (fun a => a.info.path == appPath) with
  | none => (.error BRIDGE_ERROR_INVALID_APP, sys)
  | some a =>
      if validTarget uti then
        if utiDeclsOf sys.conf uti a = [] then (.error BRIDGE_ERROR_INVALID_APP, sys)
        else
          match w with
          | .failed => (.error BRIDGE_ERROR_SYSTEM, sys)
          | .accepted nb =>
              if nb uti = some appPath then (.ok (), { sys with utiBinding := nb })
              else (.error BRIDGE_ERROR_USER_DECLINED, { sys with utiBinding := nb })
      else (.error BRIDGE_ERROR_INVALID_UTI, sys)

/-- Modelled from the spec: `SetDefaultForScheme` (src/bridge.h line 72),
scheme analogue of the registration transactor. -/
def SetDefaultForScheme (sys : SysState) (w : RegOutcome) (appPath scheme : String) :
    Except Int Unit × SysState :=
  match sys.apps.find? (fun a => a.info.path == appPath) with
  | none => (.error BRIDGE_ERROR_INVALID_APP, sys)
  | some a =>
      if validTarget scheme then
        if schemeDeclsOf scheme a = [] then (.error BRIDGE_ERROR_INVALID_APP, sys)
        else
          match w with
          | .failed => (.error BRIDGE_ERROR_SYSTEM, sys)
          | .accepted nb =>
              if nb scheme = some appPath then (.ok (), { sys with schemeBinding := nb })
              else (.error BRIDGE_ERROR_USER_DECLINED, { sys with schemeBinding := nb })
      else (.error BRIDGE_ERROR_INVALID_SCHEME, sys)

/-- Modelled from the spec: `ResolveUTIsForExtension` (src/bridge.h
line 83) — normalise the extension, reject empty or whitespace-only
input, and look the normalised token up in the external type table; a
valid extension with zero mapped types yields an empty set with success
(spec section 4.1). -/
def ResolveUTIsForExtension (sys : SysState) (ext : String) : Except Int (List String) :=
  if validTarget (normalizeExt ext) then .ok (lookupUTIs sys.typeDecls (normalizeExt ext))
  else .error BRIDGE_ERROR_INVALID_UTI

/-- Modelled from the spec: `GetExtensionsForUTI` (src/bridge.h line 94) —
validate the type identifier and return its declared extensions; an
empty set is success (spec section 4.1). -/
def GetExtensionsForUTI (sys : SysState) (uti : String) : Except Int (List String) :=
  if validTarget uti then .ok (lookupExts sys.typeDecls uti)
  else .error BRIDGE_ERROR_INVALID_UTI

/-- Modelled from the spec: `ListAppsForUTI` (src/bridge.h line 105) —
the deduplicated candidate list in enumeration order, stripped to
application paths (spec section 4.5). -/
def ListAppsForUTI (sys : SysState) (uti : String) : Except Int (List String) :=
  if validTarget uti then .ok ((utiCandidates sys uti).map HandlerCandidate.path)
  else .error BRIDGE_ERROR_INVALID_UTI

/-- Modelled from the spec: `ListAppsForScheme` (src/bridge.h line 116),
scheme analogue of candidate enumeration. -/
def ListAppsForScheme (sys : SysState) (scheme : String) : Except Int (List String) :=
  if validTarget scheme then .ok ((schemeCandidates sys scheme).map HandlerCandidate.path)
  else .error BRIDGE_ERROR_INVALID_SCHEME

/-- Modelled from the spec: `ListAllApplications` (src/bridge.h line 139),
"enumeration only, no filtering" (spec section 6). -/
def ListAllApplications (sys : SysState) : Except Int (List AppInfo) :=
  .ok (sys.apps.map App.info)

/-- Modelled from the spec: `GetSupportedDocumentTypesForApp`
(src/bridge.h line 157) — the ordered declaration sequence of the
application at the given path, InvalidApplication when the path does not
resolve (spec section 4.2). -/
def GetSupportedDocumentTypesForApp (sys : SysState) (appPath : String) :
    Except Int (List DocumentType) :=
  match sys.apps.find? (fun a => a.info.path == appPath) with
  | some a => .ok a.docTypes
  | none => .error BRIDGE_ERROR_INVALID_APP

/-! ### Concrete instances used by the witnesses -/

/-- A concrete application used by the witnesses. -/
def demoApp : App :=
  { info := { name := "TextEdit", path := "/Applications/TextEdit.app",
              bundleID := "com.apple.TextEdit" }
    docTypes :=
      [{ typeName := "Plain Text", role := "Editor", handlerRank := some .owner,
         utis := ["public.plain-text"], extensions := ["txt"], isPackage := false }]
    schemeDecls := [{ schemes := ["http"], role := "Viewer", handlerRank := some .defaultRank }] }

/-- A second concrete application used by the witnesses. -/
def demoApp2 : App :=
  { info := { name := "Bured", path := "/Applications/Bured.app",
              bundleID := "com.example.bured" }
    docTypes :=
      [{ typeName := "Plain Text", role := "Viewer", handlerRank := some .alternate,
         utis := ["public.plain-text"], extensions := ["txt"], isPackage := false },
       { typeName := "Plain Text", role := "Editor", handlerRank := some .defaultRank,
         utis := ["public.plain-text"], extensions := ["txt"], isPackage := false }]
    schemeDecls := [{ schemes := ["http"], role := "Viewer", handlerRank := none }] }

/-- A concrete system state used by the witnesses. -/
def demoSys : SysState :=
  { typeDecls := [("public.plain-text", ["txt", "text"]), ("public.html", ["html", "htm"])]
    conf := fun _ _ => false
    apps := [demoApp, demoApp2]
    utiBinding := fun _ => none
    schemeBinding := fun _ => none }

/-- A registry binding map in which the demo write took effect. -/
def demoNbGood : String → Option String :=
  fun u => if u = "public.plain-text" then some "/Applications/TextEdit.app" else none

/-- A registry binding map in which the demo write was silently ignored. -/
def demoNbIgnored : String → Option String := fun _ => none

/-- A scheme registry binding map in which the demo write took effect. -/
def demoNbScheme : String → Option String :=
  fun s => if s = "http" then some "/Applications/TextEdit.app" else none

/-- The demo system with stale default bindings naming an application that
is not installed. -/
def demoSysStale : SysState :=
  { demoSys with
    utiBinding := fun u => if u = "public.plain-text" then some "/Removed.app" else none
    schemeBinding := fun s => if s = "http" then some "/Removed.app" else none }

/-- Soundness of one operation result with respect to the return-code
taxonomy of src/bridge.h: the numeric code is negative exactly when the
operation failed, and a failing operation carries one of the six declared
failure codes. -/
def codeSound {α : Type} (r : Except Int α) : Prop :=
  (retCode r < 0 ↔ ∀ x, r ≠ .ok x) ∧ ∀ c, r = .error c → c ∈ errCodeList

/-! ### Character-level facts about case normalisation -/

theorem charOfNat_toNat {n : Nat} (h : Nat.isValidChar n) : (Char.ofNat n).toNat = n := by
  rw [Char.ofNat, dif_pos h]
  rfl

theorem toLower_toNat (c : Char) :
    (Char.toLower c).toNat = if 65 ≤ c.toNat ∧ c.toNat ≤ 90 then c.toNat + 32 else c.toNat := by
  unfold Char.toLower
  split
  · next h =>
    rw [if_pos (by omega)]
    exact charOfNat_toNat (Or.inl (by omega))
  · next h =>
    rw [if_neg (by omega)]

theorem char_toNat_inj {c d : Char} (h : c.toNat = d.toNat) : c = d := by
  have h2 := Char.ofNat_toNat c
  rw [h, Char.ofNat_toNat] at h2
  exact h2.symm

theorem toLower_idem (c : Char) : Char.toLower (Char.toLower c) = Char.toLower c := by
  apply char_toNat_inj
  rw [toLower_toNat, toLower_toNat]
  split_ifs <;> omega

theorem toLower_eq_dot {c : Char} : Char.toLower c = '.' ↔ c = '.' := by
  constructor
  · intro h
    have h2 : (Char.toLower c).toNat = 46 := by rw [h]; rfl
    rw [toLower_toNat] at h2
    apply char_toNat_inj
    have hd : ('.' : Char).toNat = 46 := rfl
    rw [hd]
    split at h2 <;> omega
  · intro h
    subst h
    rfl

theorem lowerData_idem (s : String) : lowerData (lowerStr s) = lowerData s := by
  simp only [lowerData, lowerStr, List.map_map]
  exact List.map_congr_left (fun c _ => toLower_idem c)

/-! ### Facts about extension normalisation -/

theorem stripDotData_map_toLower (d : List Char) :
    (stripDotData d).map Char.toLower = stripDotData (d.map Char.toLower) := by
  cases d with
  | nil => rfl
  | cons c t =>
    by_cases hc : c = '.'
    · subst hc
      rw [stripDotData, if_pos rfl, List.map_cons, stripDotData, if_pos (by rfl)]
    · have hc2 : Char.toLower c ≠ '.' := fun h2 => hc (toLower_eq_dot.mp h2)
      rw [stripDotData, if_neg hc, List.map_cons, stripDotData, if_neg hc2]

theorem lowerData_stripDot {e1 e2 : String} (h : lowerData e1 = lowerData e2) :
    lowerData (stripDot e1) = lowerData (stripDot e2) := by
  have h1 : lowerData (stripDot e1) = stripDotData (lowerData e1) :=
    stripDotData_map_toLower e1.data
  have h2 : lowerData (stripDot e2) = stripDotData (lowerData e2) :=
    stripDotData_map_toLower e2.data
  rw [h1, h2, h]

theorem normalizeExt_eq_of_lower {e1 e2 : String} (h : lowerData e1 = lowerData e2) :
    normalizeExt e1 = normalizeExt e2 := by
  unfold normalizeExt lowerStr
  exact congrArg String.mk (lowerData_stripDot h)

theorem resolveExt_congr {sys : SysState} {e1 e2 : String}
    (h : normalizeExt e1 = normalizeExt e2) :
    ResolveUTIsForExtension sys e1 = ResolveUTIsForExtension sys e2 := by
  unfold ResolveUTIsForExtension
  rw [h]

theorem stripDot_of_no_dot {e : String} (h : e.data.head? ≠ some '.') : stripDot e = e := by
  cases e with
  | mk d =>
    cases d with
    | nil => rfl
    | cons c t =>
      have hc : c ≠ '.' := fun h2 => h (by rw [h2]; rfl)
      show String.mk (stripDotData (c :: t)) = ⟨c :: t⟩
      rw [stripDotData, if_neg hc]

theorem stripDot_dot_append (e : String) : stripDot ("." ++ e) = e := by
  cases e with
  | mk d => rfl

theorem normalizeExt_of_no_dot {e : String} (h : e.data.head? ≠ some '.') :
    normalizeExt e = lowerStr e := by
  rw [normalizeExt, stripDot_of_no_dot h]

theorem head?_no_dot_lowerStr {e : String} (h : e.data.head? ≠ some '.') :
    (lowerStr e).data.head? ≠ some '.' := by
  cases e with
  | mk d =>
    cases d with
    | nil => simp [lowerStr, lowerData]
    | cons c t =>
      intro h2
      have h3 : Char.toLower c = '.' := by
        have : (lowerStr ⟨c :: t⟩).data.head? = some (Char.toLower c) := rfl
        rw [this] at h2
        exact Option.some.inj h2
      exact h (by rw [toLower_eq_dot.mp h3]; rfl)

/-! ### Facts about rank selection -/

theorem bestRankVal_cons (x : RankedDecl) (t : List RankedDecl) :
    bestRankVal (x :: t) = max (rankVal x.handlerRank) (bestRankVal t) := rfl

theorem le_bestRankVal {ds : List RankedDecl} {d : RankedDecl} (h : d ∈ ds) :
    rankVal d.handlerRank ≤ bestRankVal ds := by
  induction ds with
  | nil => cases h
  | cons x t ih =>
    rw [bestRankVal_cons]
    rcases List.mem_cons.mp h with h | h
    · subst h; exact Nat.le_max_left _ _
    · exact le_trans (ih h) (Nat.le_max_right _ _)

theorem exists_bestRank : ∀ {ds : List RankedDecl}, ds ≠ [] →
    ∃ d ∈ ds, rankVal d.handlerRank = bestRankVal ds := by
  intro ds hne
  induction ds with
  | nil => exact absurd rfl hne
  | cons x t ih =>
    rw [bestRankVal_cons]
    by_cases hx : bestRankVal t ≤ rankVal x.handlerRank
    · exact ⟨x, List.mem_cons_self x t, (Nat.max_eq_left hx).symm⟩
    · have htne : t ≠ [] := by
        intro h
        subst h
        simp [bestRankVal] at hx
      obtain ⟨d, hd, hv⟩ := ih htne
      exact ⟨d, List.mem_cons_of_mem _ hd, by rw [hv, Nat.max_eq_right (by omega)]⟩

theorem selectDecl_isSome {ds : List RankedDecl} (h : ds ≠ []) :
    ∃ d, selectDecl ds = some d := by
  rw [← Option.isSome_iff_exists]
  rw [selectDecl, List.find?_isSome]
  obtain ⟨d, hd, hv⟩ := exists_bestRank h
  exact ⟨d, hd, by simp [hv]⟩

theorem selectDecl_spec {ds : List RankedDecl} {d : RankedDecl}
    (h : selectDecl ds = some d) :
    d ∈ ds ∧ rankVal d.handlerRank = bestRankVal ds ∧
      ∃ pre suf, ds = pre ++ d :: suf ∧
        ∀ x ∈ pre, rankVal x.handlerRank < rankVal d.handlerRank := by
  rw [selectDecl, List.find?_eq_some] at h
  obtain ⟨hp, pre, suf, hds, hpre⟩ := h
  have hd : rankVal d.handlerRank = bestRankVal ds := by simpa using hp
  have hmem : d ∈ ds := by rw [hds]; exact List.mem_append_right _ (List.mem_cons_self _ _)
  refine ⟨hmem, hd, pre, suf, hds, fun x hx => ?_⟩
  have hxmem : x ∈ ds := by rw [hds]; exact List.mem_append_left _ hx
  have hle := le_bestRankVal hxmem
  have hne : rankVal x.handlerRank ≠ bestRankVal ds := by simpa using hpre x hx
  omega

/-! ### Facts about candidate construction and deduplication -/

theorem candidateFor_eq_some {declsOf : App → List RankedDecl} {a : App}
    {c : HandlerCandidate} (h : candidateFor declsOf a = some c) :
    c.name = a.info.name ∧ c.path = a.info.path ∧
      ∃ d, selectDecl (declsOf a) = some d ∧ c.role = d.role ∧
        c.handlerRank = d.handlerRank := by
  rw [candidateFor, Option.map_eq_some'] at h
  obtain ⟨d, hd, hc⟩ := h
  subst hc
  exact ⟨rfl, rfl, d, hd, rfl, rfl⟩

theorem candidateFor_isSome {declsOf : App → List RankedDecl} {a : App}
    (h : declsOf a ≠ []) : ∃ c, candidateFor declsOf a = some c := by
  obtain ⟨d, hd⟩ := selectDecl_isSome h
  exact ⟨_, by rw [candidateFor, hd]; rfl⟩

theorem mem_rawCandidates {declsOf : App → List RankedDecl} {apps : List App}
    {c : HandlerCandidate} :
    c ∈ rawCandidates declsOf apps ↔ ∃ a ∈ apps, candidateFor declsOf a = some c :=
  List.mem_filterMap

theorem mem_of_mem_dedupAux : ∀ {seen : List String} {l : List HandlerCandidate}
    {c : HandlerCandidate}, c ∈ dedupByPathAux seen l → c ∈ l := by
  intro seen l
  induction l generalizing seen with
  | nil => intro c h; exact absurd h (by simp [dedupByPathAux])
  | cons x t ih =>
    intro c h
    rw [dedupByPathAux] at h
    split at h
    · exact List.mem_cons_of_mem _ (ih h)
    · rcases List.mem_cons.mp h with h | h
      · subst h; exact List.mem_cons_self _ _
      · exact List.mem_cons_of_mem _ (ih h)

theorem path_mem_dedupAux : ∀ {seen : List String} {l : List HandlerCandidate} {p : String},
    p ∈ (dedupByPathAux seen l).map HandlerCandidate.path ↔
      p ∈ l.map HandlerCandidate.path ∧ p ∉ seen := by
  intro seen l
  induction l generalizing seen with
  | nil => intro p; simp [dedupByPathAux]
  | cons x t ih =>
    intro p
    rw [dedupByPathAux]
    split
    · next hx =>
      rw [ih]
      constructor
      · rintro ⟨hp, hns⟩
        exact ⟨by simp [hp], hns⟩
      · rintro ⟨hp, hns⟩
        rcases List.mem_map.mp hp with ⟨c, hc, hcp⟩
        rcases List.mem_cons.mp hc with hc | hc
        · subst hc
          exact absurd (hcp ▸ hx) hns
        · exact ⟨List.mem_map.mpr ⟨c, hc, hcp⟩, hns⟩
    · next hx =>
      rw [List.map_cons, List.mem_cons, ih]
      constructor
      · rintro (hp | ⟨hp, hns⟩)
        · subst hp
          exact ⟨by simp, hx⟩
        · refine ⟨?_, fun hc => hns (List.mem_cons_of_mem _ hc)⟩
          rw [List.map_cons, List.mem_cons]
          exact Or.inr hp
      · rintro ⟨hp, hns⟩
        rw [List.map_cons, List.mem_cons] at hp
        rcases hp with hp | hp
        · exact Or.inl hp
        · by_cases hpx : p = x.path
          · exact Or.inl hpx
          · exact Or.inr ⟨hp, by simp [hpx, hns]⟩

theorem nodup_path_dedupAux : ∀ {seen : List String} {l : List HandlerCandidate},
    ((dedupByPathAux seen l).map HandlerCandidate.path).Nodup := by
  intro seen l
  induction l generalizing seen with
  | nil => simp [dedupByPathAux]
  | cons x t ih =>
    rw [dedupByPathAux]
    split
    · exact ih
    · rw [List.map_cons, List.nodup_cons]
      refine ⟨fun hc => ?_, ih⟩
      rw [path_mem_dedupAux] at hc
      exact hc.2 (List.mem_cons_self _ _)

theorem path_mem_dedup {l : List HandlerCandidate} {p : String} :
    p ∈ (dedupByPath l).map HandlerCandidate.path ↔ p ∈ l.map HandlerCandidate.path := by
  rw [dedupByPath, path_mem_dedupAux]
  simp

/-! ### Facts about the sorted candidate list -/

theorem sortedCandidates_sorted (declsOf : App → List RankedDecl) (apps : List App) :
    List.Sorted candLE (sortedCandidates declsOf apps) :=
  List.sorted_insertionSort candLE _

theorem mem_sortedCandidates {declsOf : App → List RankedDecl} {apps : List App}
    {c : HandlerCandidate} :
    c ∈ sortedCandidates declsOf apps ↔ c ∈ dedupByPath (rawCandidates declsOf apps) :=
  List.mem_insertionSort candLE

theorem path_mem_sortedCandidates {declsOf : App → List RankedDecl} {apps : List App}
    {p : String} :
    p ∈ (sortedCandidates declsOf apps).map HandlerCandidate.path ↔
      p ∈ (rawCandidates declsOf apps).map HandlerCandidate.path := by
  have h1 : p ∈ (sortedCandidates declsOf apps).map HandlerCandidate.path ↔
      p ∈ (dedupByPath (rawCandidates declsOf apps)).map HandlerCandidate.path :=
    ((List.perm_insertionSort candLE _).map _).mem_iff
  rw [h1, path_mem_dedup]

theorem nodup_path_sortedCandidates (declsOf : App → List RankedDecl) (apps : List App) :
    ((sortedCandidates declsOf apps).map HandlerCandidate.path).Nodup :=
  (((List.perm_insertionSort candLE _).map _).nodup_iff).mpr nodup_path_dedupAux

theorem path_mem_of_capable {declsOf : App → List RankedDecl} {apps : List App} {a : App}
    (ha : a ∈ apps) (hd : declsOf a ≠ []) :
    a.info.path ∈ (sortedCandidates declsOf apps).map HandlerCandidate.path := by
  rw [path_mem_sortedCandidates]
  obtain ⟨c, hc⟩ := candidateFor_isSome hd
  obtain ⟨_, hpath, _⟩ := candidateFor_eq_some hc
  exact List.mem_map.mpr ⟨c, mem_rawCandidates.mpr ⟨a, ha, hc⟩, hpath⟩

theorem sorted_candidate_shape {declsOf : App → List RankedDecl} {apps : List App}
    {c : HandlerCandidate} (hc : c ∈ sortedCandidates declsOf apps) :
    ∃ a ∈ apps, c.name = a.info.name ∧ c.path = a.info.path ∧
      ∃ pre suf d, declsOf a = pre ++ d :: suf ∧
        c.role = d.role ∧ c.handlerRank = d.handlerRank ∧
        (∀ d2 ∈ declsOf a, rankVal d2.handlerRank ≤ rankVal d.handlerRank) ∧
        (∀ d2 ∈ pre, rankVal d2.handlerRank < rankVal d.handlerRank) := by
  have hr : c ∈ rawCandidates declsOf apps :=
    mem_of_mem_dedupAux (mem_sortedCandidates.mp hc)
  obtain ⟨a, ha, hcf⟩ := mem_rawCandidates.mp hr
  obtain ⟨hname, hpath, d, hd, hrole, hrank⟩ := candidateFor_eq_some hcf
  obtain ⟨hmem, hbest, pre, suf, hsplit, hpre⟩ := selectDecl_spec hd
  refine ⟨a, ha, hname, hpath, pre, suf, d, hsplit, hrole, hrank, fun d2 h2 => ?_, hpre⟩
  rw [hbest]
  exact le_bestRankVal h2

/-! ### Characterisations of the registration transactor -/

theorem find?_path_eq {apps : List App} {app : String} {a : App}
    (h : apps.find? (fun x => x.info.path == app) = some a) :
    a ∈ apps ∧ a.info.path = app :=
  ⟨List.mem_of_find?_eq_some h, by simpa using List.find?_some h⟩

theorem setDefaultForUTI_ok {sys : SysState} {w : RegOutcome} {app uti : String}
    (h : (SetDefaultForUTI sys w app uti).1 = .ok ()) :
    ∃ a nb, sys.apps.find? (fun x => x.info.path == app) = some a ∧
      validTarget uti = true ∧ utiDeclsOf sys.conf uti a ≠ [] ∧
      w = .accepted nb ∧ nb uti = some app ∧
      (SetDefaultForUTI sys w app uti).2 = { sys with utiBinding := nb } := by
  unfold SetDefaultForUTI at h ⊢
  split at h
  · simp at h
  · next a hfind =>
    split at h
    · next hv =>
      split at h
      · simp at h
      · next hd =>
        split at h
        · simp at h
        · next nb =>
          split at h
          · next hnb =>
            refine ⟨a, nb, hfind, by simpa using hv, hd, rfl, hnb, ?_⟩
            rw [if_pos hv, if_neg hd, if_pos hnb]
          · simp at h
    · simp at h

theorem setDefaultForScheme_ok {sys : SysState} {w : RegOutcome} {app scheme : String}
    (h : (SetDefaultForScheme sys w app scheme).1 = .ok ()) :
    ∃ a nb, sys.apps.find? (fun x => x.info.path == app) = some a ∧
      validTarget scheme = true ∧ schemeDeclsOf scheme a ≠ [] ∧
      w = .accepted nb ∧ nb scheme = some app ∧
      (SetDefaultForScheme sys w app scheme).2 = { sys with schemeBinding := nb } := by
  unfold SetDefaultForScheme at h ⊢
  split at h
  · simp at h
  · next a hfind =>
    split at h
    · next hv =>
      split at h
      · simp at h
      · next hd =>
        split at h
        · simp at h
        · next nb =>
          split at h
          · next hnb =>
            refine ⟨a, nb, hfind, by simpa using hv, hd, rfl, hnb, ?_⟩
            rw [if_pos hv, if_neg hd, if_pos hnb]
          · simp at h
    · simp at h

theorem setDefaultForUTI_declined {sys : SysState} {nb : String → Option String}
    {app uti : String} {a : App}
    (hfind : sys.apps.find? (fun x => x.info.path == app) = some a)
    (hv : validTarget uti = true) (hd : utiDeclsOf sys.conf uti a ≠ [])
    (hnb : nb uti ≠ some app) :
    (SetDefaultForUTI sys (.accepted nb) app uti).1 =
      .error BRIDGE_ERROR_USER_DECLINED := by
  simp only [SetDefaultForUTI, hfind]
  rw [if_pos hv, if_neg hd, if_neg hnb]

theorem setDefaultForScheme_declined {sys : SysState} {nb : String → Option String}
    {app scheme : String} {a : App}
    (hfind : sys.apps.find? (fun x => x.info.path == app) = some a)
    (hv : validTarget scheme = true) (hd : schemeDeclsOf scheme a ≠ [])
    (hnb : nb scheme ≠ some app) :
    (SetDefaultForScheme sys (.accepted nb) app scheme).1 =
      .error BRIDGE_ERROR_USER_DECLINED := by
  simp only [SetDefaultForScheme, hfind]
  rw [if_pos hv, if_neg hd, if_neg hnb]

theorem getDefaultForUTI_of_binding {sys : SysState} {uti p : String}
    (hv : validTarget uti = true) (hb : sys.utiBinding uti = some p)
    (hmem : p ∈ (utiCandidates sys uti).map HandlerCandidate.path) :
    GetDefaultAppForUTI sys uti = .ok p := by
  unfold GetDefaultAppForUTI
  rw [if_pos hv, hb]
  exact if_pos hmem

theorem getDefaultForScheme_of_binding {sys : SysState} {scheme p : String}
    (hv : validTarget scheme = true) (hb : sys.schemeBinding scheme = some p)
    (hmem : p ∈ (schemeCandidates sys scheme).map HandlerCandidate.path) :
    GetDefaultAppForScheme sys scheme = .ok p := by
  unfold GetDefaultAppForScheme
  rw [if_pos hv, hb]
  exact if_pos hmem

/-! ### Return-code soundness helpers -/

theorem codeSound_ok {α : Type} (x : α) : codeSound (.ok x) := by
  refine ⟨⟨fun h => ?_, fun h => ?_⟩, fun c hc => ?_⟩
  · rw [show retCode (Except.ok x) = 0 from rfl] at h
    exact absurd h (by omega)
  · exact absurd rfl (h x)
  · cases hc

theorem codeSound_err {α : Type} {c : Int} (h : c ∈ errCodeList) (hneg : c < 0) :
    codeSound (α := α) (.error c) := by
  refine ⟨⟨fun _ x hc => ?_, fun _ => ?_⟩, fun c2 hc2 => ?_⟩
  · cases hc
  · rw [retCode]; exact hneg
  · injection hc2 with h2
    rw [← h2]
    exact h

/-! ### The claims -/

/-- Claim C2: for an application that resolves but has no declaration
covering the (well-formed) target, SetDefaultForUTI and
SetDefaultForScheme fail with BRIDGE_ERROR_INVALID_APP and leave the
whole system state — in particular the DefaultBinding — unchanged,
whatever the external registry would have answered. -/
theorem C2_incapable_app_rejected (sys : SysState) (w : RegOutcome)
    (app uti scheme : String) (a : App)
    (hfind : sys.apps.find? (fun x => x.info.path == app) = some a) :
    (validTarget uti = true → utiDeclsOf sys.conf uti a = [] →
      (SetDefaultForUTI sys w app uti).1 = .error BRIDGE_ERROR_INVALID_APP ∧
      (SetDefaultForUTI sys w app uti).2 = sys) ∧
    (validTarget scheme = true → schemeDeclsOf scheme a = [] →
      (SetDefaultForScheme sys w app scheme).1 = .error BRIDGE_ERROR_INVALID_APP ∧
      (SetDefaultForScheme sys w app scheme).2 = sys) := by
  constructor
  · intro hv hd
    simp only [SetDefaultForUTI, hfind]
    rw [if_pos hv, if_pos hd]
    exact ⟨rfl, rfl⟩
  · intro hv hd
    simp only [SetDefaultForScheme, hfind]
    rw [if_pos hv, if_pos hd]
    exact ⟨rfl, rfl⟩

/-- Witness for C2 at a concrete input: TextEdit declares nothing for
`public.html` nor for the `ftp` scheme, so both writes are rejected with
InvalidApplication and the state is untouched. -/
theorem C2_incapable_app_rejected_witness :
    ((SetDefaultForUTI demoSys .failed "/Applications/TextEdit.app" "public.html").1 =
        .error BRIDGE_ERROR_INVALID_APP ∧
      (SetDefaultForUTI demoSys .failed "/Applications/TextEdit.app" "public.html").2 =
        demoSys) ∧
    ((SetDefaultForScheme demoSys .failed "/Applications/TextEdit.app" "ftp").1 =
        .error BRIDGE_ERROR_INVALID_APP ∧
      (SetDefaultForScheme demoSys .failed "/Applications/TextEdit.app" "ftp").2 =
        demoSys) :=
  ⟨(C2_incapable_app_rejected demoSys .failed "/Applications/TextEdit.app" "public.html"
      "ftp" demoApp rfl).1 rfl rfl,
   (C2_incapable_app_rejected demoSys .failed "/Applications/TextEdit.app" "public.html"
      "ftp" demoApp rfl).2 rfl rfl⟩

/-- Claim C4: the sequences underlying ListAppsForUTI and
ListAppsForScheme are sorted by handler rank descending, then application
name case-insensitively, then path (the relation `candLE`), the returned
paths are exactly that ordered candidate sequence, and re-invocation
under an unchanged system state yields an identical sequence. -/
theorem C4_enumeration_order (sys : SysState) (uti scheme : String) :
    List.Sorted candLE (utiCandidates sys uti) ∧
    List.Sorted candLE (schemeCandidates sys scheme) ∧
    (validTarget uti = true →
      ListAppsForUTI sys uti = .ok ((utiCandidates sys uti).map HandlerCandidate.path)) ∧
    (validTarget scheme = true →
      ListAppsForScheme sys scheme =
        .ok ((schemeCandidates sys scheme).map HandlerCandidate.path)) ∧
    (∀ sys2, sys2 = sys →
      ListAppsForUTI sys2 uti = ListAppsForUTI sys uti ∧
      ListAppsForScheme sys2 scheme = ListAppsForScheme sys scheme) := by
  refine ⟨sortedCandidates_sorted _ _, sortedCandidates_sorted _ _, fun hv => ?_,
    fun hv => ?_, ?_⟩
  · rw [ListAppsForUTI, if_pos hv]
  · rw [ListAppsForScheme, if_pos hv]
  · rintro sys2 rfl
    exact ⟨rfl, rfl⟩

/-- Witness for C4 at a concrete input. -/
theorem C4_enumeration_order_witness :
    ListAppsForUTI demoSys "public.plain-text" =
      .ok ((utiCandidates demoSys "public.plain-text").map HandlerCandidate.path) ∧
    ListAppsForScheme demoSys "http" =
      .ok ((schemeCandidates demoSys "http").map HandlerCandidate.path) :=
  ⟨(C4_enumeration_order demoSys "public.plain-text" "http").2.2.1 rfl,
   (C4_enumeration_order demoSys "public.plain-text" "http").2.2.2.1 rfl⟩

/-- Claim C5: when the external DefaultBinding has no entry for the
target and the candidate list is non-empty, the application at index 0 of
the enumeration equals the effective (inferred) default returned by
default resolution. -/
theorem C5_inferred_default_is_head (sys : SysState) (uti scheme : String)
    (c d : HandlerCandidate) (cs ds : List HandlerCandidate) :
    (validTarget uti = true → sys.utiBinding uti = none →
      utiCandidates sys uti = c :: cs →
      GetDefaultAppForUTI sys uti = .ok c.path ∧
      ListAppsForUTI sys uti = .ok (c.path :: cs.map HandlerCandidate.path)) ∧
    (validTarget scheme = true → sys.schemeBinding scheme = none →
      schemeCandidates sys scheme = d :: ds →
      GetDefaultAppForScheme sys scheme = .ok d.path ∧
      ListAppsForScheme sys scheme = .ok (d.path :: ds.map HandlerCandidate.path)) := by
  constructor
  · intro hv hb hc
    constructor
    · unfold GetDefaultAppForUTI
      rw [if_pos hv, hb, hc]
    · rw [ListAppsForUTI, if_pos hv, hc, List.map_cons]
  · intro hv hb hc
    constructor
    · unfold GetDefaultAppForScheme
      rw [if_pos hv, hb, hc]
    · rw [ListAppsForScheme, if_pos hv, hc, List.map_cons]

/-- Witness for C5 at a concrete input: with no explicit binding, the
inferred default for `public.plain-text` is TextEdit (rank Owner), which
is also the first enumerated application. -/
theorem C5_inferred_default_is_head_witness :
    (GetDefaultAppForUTI demoSys "public.plain-text" = .ok "/Applications/TextEdit.app" ∧
      ListAppsForUTI demoSys "public.plain-text" =
        .ok ["/Applications/TextEdit.app", "/Applications/Bured.app"]) ∧
    (GetDefaultAppForScheme demoSys "http" = .ok "/Applications/TextEdit.app" ∧
      ListAppsForScheme demoSys "http" =
        .ok ["/Applications/TextEdit.app", "/Applications/Bured.app"]) :=
  ⟨(C5_inferred_default_is_head demoSys "public.plain-text" "http"
      ⟨"TextEdit", "/Applications/TextEdit.app", "Editor", some .owner⟩
      ⟨"TextEdit", "/Applications/TextEdit.app", "Viewer", some .defaultRank⟩
      [⟨"Bured", "/Applications/Bured.app", "Editor", some .defaultRank⟩]
      [⟨"Bured", "/Applications/Bured.app", "Viewer", none⟩]).1 rfl rfl (by decide),
   (C5_inferred_default_is_head demoSys "public.plain-text" "http"
      ⟨"TextEdit", "/Applications/TextEdit.app", "Editor", some .owner⟩
      ⟨"TextEdit", "/Applications/TextEdit.app", "Viewer", some .defaultRank⟩
      [⟨"Bured", "/Applications/Bured.app", "Editor", some .defaultRank⟩]
      [⟨"Bured", "/Applications/Bured.app", "Viewer", none⟩]).2 rfl rfl (by decide)⟩

/-- Claim C6: a syntactically valid extension or type identifier with
zero mapped counterparts yields BRIDGE_OK with an empty set, never an
error — the empty-but-successful outcome is distinguished from every
error outcome. -/
theorem C6_empty_is_success (sys : SysState) (e uti : String) :
    (validTarget (normalizeExt e) = true →
      lookupUTIs sys.typeDecls (normalizeExt e) = [] →
      ResolveUTIsForExtension sys e = .ok [] ∧
        ∀ c, ResolveUTIsForExtension sys e ≠ .error c) ∧
    (validTarget uti = true → lookupExts sys.typeDecls uti = [] →
      GetExtensionsForUTI sys uti = .ok [] ∧
        ∀ c, GetExtensionsForUTI sys uti ≠ .error c) := by
  constructor
  · intro hv hz
    have hok : ResolveUTIsForExtension sys e = .ok [] := by
      rw [ResolveUTIsForExtension, if_pos hv, hz]
    exact ⟨hok, fun c hc => by rw [hok] at hc; cases hc⟩
  · intro hv hz
    have hok : GetExtensionsForUTI sys uti = .ok [] := by
      rw [GetExtensionsForUTI, if_pos hv, hz]
    exact ⟨hok, fun c hc => by rw [hok] at hc; cases hc⟩

/-- Witness for C6 at a concrete input: the demo type table maps neither
the extension `pdf` nor the type `public.image`. -/
theorem C6_empty_is_success_witness :
    ResolveUTIsForExtension demoSys "pdf" = .ok [] ∧
    GetExtensionsForUTI demoSys "public.image" = .ok [] :=
  ⟨((C6_empty_is_success demoSys "pdf" "public.image").1 rfl rfl).1,
   ((C6_empty_is_success demoSys "pdf" "public.image").2 rfl rfl).1⟩

/-- Claim C7: when the external DefaultBinding names an application path
absent from the candidate list (stale or uninstalled), default resolution
returns BRIDGE_ERROR_NOT_FOUND instead of that path or a fabricated
result. -/
theorem C7_stale_binding_not_found (sys : SysState) (uti scheme p q : String)
    (hvu : validTarget uti = true) (hbu : sys.utiBinding uti = some p)
    (hpu : p ∉ (utiCandidates sys uti).map HandlerCandidate.path)
    (hvs : validTarget scheme = true) (hbs : sys.schemeBinding scheme = some q)
    (hps : q ∉ (schemeCandidates sys scheme).map HandlerCandidate.path) :
    GetDefaultAppForUTI sys uti = .error BRIDGE_ERROR_NOT_FOUND ∧
    GetDefaultAppForScheme sys scheme = .error BRIDGE_ERROR_NOT_FOUND := by
  constructor
  · unfold GetDefaultAppForUTI
    rw [if_pos hvu, hbu]
    exact if_neg hpu
  · unfold GetDefaultAppForScheme
    rw [if_pos hvs, hbs]
    exact if_neg hps

/-- Witness for C7 at a concrete input: the stale demo system binds both
targets to `/Removed.app`, which no installed application provides. -/
theorem C7_stale_binding_not_found_witness :
    GetDefaultAppForUTI demoSysStale "public.plain-text" =
      .error BRIDGE_ERROR_NOT_FOUND ∧
    GetDefaultAppForScheme demoSysStale "http" = .error BRIDGE_ERROR_NOT_FOUND :=
  C7_stale_binding_not_found demoSysStale "public.plain-text" "http" "/Removed.app"
    "/Removed.app" rfl rfl (by decide) rfl rfl (by decide)

/-- Claim C1: a successful SetDefaultForUTI / SetDefaultForScheme is
immediately confirmed by default resolution returning the written
application path; and when the external registry accepts the write but
the read-back of the binding does not equal the requested application,
the call returns BRIDGE_ERROR_USER_DECLINED (neither BRIDGE_ERROR_SYSTEM
nor BRIDGE_OK). -/
theorem C1_set_default_read_back (sys : SysState) (w : RegOutcome)
    (nb : String → Option String) (app uti scheme : String) (a : App) :
    ((SetDefaultForUTI sys w app uti).1 = .ok () →
      GetDefaultAppForUTI (SetDefaultForUTI sys w app uti).2 uti = .ok app) ∧
    ((SetDefaultForScheme sys w app scheme).1 = .ok () →
      GetDefaultAppForScheme (SetDefaultForScheme sys w app scheme).2 scheme = .ok app) ∧
    (sys.apps.find? (fun x => x.info.path == app) = some a →
      validTarget uti = true → utiDeclsOf sys.conf uti a ≠ [] → nb uti ≠ some app →
      (SetDefaultForUTI sys (.accepted nb) app uti).1 =
        .error BRIDGE_ERROR_USER_DECLINED) ∧
    (sys.apps.find? (fun x => x.info.path == app) = some a →
      validTarget scheme = true → schemeDeclsOf scheme a ≠ [] → nb scheme ≠ some app →
      (SetDefaultForScheme sys (.accepted nb) app scheme).1 =
        .error BRIDGE_ERROR_USER_DECLINED) := by
  refine ⟨fun hok => ?_, fun hok => ?_,
    fun hf hv hd hnb => setDefaultForUTI_declined hf hv hd hnb,
    fun hf hv hd hnb => setDefaultForScheme_declined hf hv hd hnb⟩
  · obtain ⟨a0, nb0, hfind, hv, hd, hw, hnb, hpost⟩ := setDefaultForUTI_ok hok
    obtain ⟨ha0, hpath⟩ := find?_path_eq hfind
    rw [hpost]
    refine getDefaultForUTI_of_binding hv hnb ?_
    have hm := @path_mem_of_capable (utiDeclsOf sys.conf uti) sys.apps a0 ha0 hd
    rw [hpath] at hm
    exact hm
  · obtain ⟨a0, nb0, hfind, hv, hd, hw, hnb, hpost⟩ := setDefaultForScheme_ok hok
    obtain ⟨ha0, hpath⟩ := find?_path_eq hfind
    rw [hpost]
    refine getDefaultForScheme_of_binding hv hnb ?_
    have hm := @path_mem_of_capable (schemeDeclsOf scheme) sys.apps a0 ha0 hd
    rw [hpath] at hm
    exact hm

/-- Witness for C1 at concrete inputs: a confirmed write reads back as
the new default for both a type identifier and a scheme, and a silently
ignored write is reported as UserDeclined for both. -/
theorem C1_set_default_read_back_witness :
    GetDefaultAppForUTI
        (SetDefaultForUTI demoSys (.accepted demoNbGood) "/Applications/TextEdit.app"
          "public.plain-text").2 "public.plain-text" = .ok "/Applications/TextEdit.app" ∧
    GetDefaultAppForScheme
        (SetDefaultForScheme demoSys (.accepted demoNbScheme) "/Applications/TextEdit.app"
          "http").2 "http" = .ok "/Applications/TextEdit.app" ∧
    (SetDefaultForUTI demoSys (.accepted demoNbIgnored) "/Applications/TextEdit.app"
        "public.plain-text").1 = .error BRIDGE_ERROR_USER_DECLINED ∧
    (SetDefaultForScheme demoSys (.accepted demoNbIgnored) "/Applications/TextEdit.app"
        "http").1 = .error BRIDGE_ERROR_USER_DECLINED :=
  ⟨(C1_set_default_read_back demoSys (.accepted demoNbGood) demoNbIgnored
      "/Applications/TextEdit.app" "public.plain-text" "http" demoApp).1 (by decide),
   (C1_set_default_read_back demoSys (.accepted demoNbScheme) demoNbIgnored
      "/Applications/TextEdit.app" "public.plain-text" "http" demoApp).2.1 (by decide),
   (C1_set_default_read_back demoSys (.accepted demoNbGood) demoNbIgnored
      "/Applications/TextEdit.app" "public.plain-text" "http" demoApp).2.2.1
      (by decide) (by decide) (by decide) (by decide),
   (C1_set_default_read_back demoSys (.accepted demoNbGood) demoNbIgnored
      "/Applications/TextEdit.app" "public.plain-text" "http" demoApp).2.2.2
      (by decide) (by decide) (by decide) (by decide)⟩

/-- Claim C3: for a valid, normal-form extension, every type identifier
produced by ResolveUTIsForExtension maps back — through
GetExtensionsForUTI — to a set containing that extension (round-trip
closure over the declaration table; the table is assumed to hold
well-formed, non-empty type identifiers). -/
theorem C3_round_trip (sys : SysState) (e t : String) (uts : List String)
    (hnorm : normalizeExt e = e)
    (hdb : ∀ p ∈ sys.typeDecls, validTarget p.1 = true)
    (hres : ResolveUTIsForExtension sys e = .ok uts) (ht : t ∈ uts) :
    ∃ exts, GetExtensionsForUTI sys t = .ok exts ∧ e ∈ exts := by
  rw [ResolveUTIsForExtension, hnorm] at hres
  by_cases hv : validTarget e = true
  · rw [if_pos hv] at hres
    have huts : lookupUTIs sys.typeDecls e = uts := Except.ok.inj hres
    subst huts
    rw [lookupUTIs] at ht
    obtain ⟨p, hp, hpt⟩ := List.mem_map.mp ht
    obtain ⟨hpdb, hcont⟩ := List.mem_filter.mp hp
    have hpt2 : p.1 = t := hpt
    have he : e ∈ p.2.map normalizeExt := of_decide_eq_true hcont
    have hvt : validTarget t = true := by
      have h2 := hdb p hpdb
      rw [hpt2] at h2
      exact h2
    refine ⟨lookupExts sys.typeDecls t, ?_, ?_⟩
    · rw [GetExtensionsForUTI, if_pos hvt]
    · rw [lookupExts]
      refine List.mem_flatMap.mpr ⟨p, List.mem_filter.mpr ⟨hpdb, ?_⟩, he⟩
      exact decide_eq_true hpt2
  · rw [if_neg hv] at hres
    cases hres

/-- Witness for C3 at a concrete input: `txt` resolves to
`public.plain-text`, whose declared extensions contain `txt`. -/
theorem C3_round_trip_witness :
    ∃ exts, GetExtensionsForUTI demoSys "public.plain-text" = .ok exts ∧ "txt" ∈ exts :=
  C3_round_trip demoSys "txt" "public.plain-text" ["public.plain-text"] (by decide)
    (by decide) (by decide) (by decide)

/-- Claim C9: ResolveUTIsForExtension strips a leading separator and
normalises case before lookup — a leading-dot form resolves like the bare
extension, two strings equal up to case resolve identically, and the
normalised form of a separator-free extension resolves like the extension
itself. -/
theorem C9_normalization_before_lookup (sys : SysState) (e e1 e2 : String) :
    (e.data.head? ≠ some '.' →
      ResolveUTIsForExtension sys ("." ++ e) = ResolveUTIsForExtension sys e) ∧
    (lowerData e1 = lowerData e2 →
      ResolveUTIsForExtension sys e1 = ResolveUTIsForExtension sys e2) ∧
    (e.data.head? ≠ some '.' →
      ResolveUTIsForExtension sys (normalizeExt e) = ResolveUTIsForExtension sys e) := by
  refine ⟨fun h => ?_, fun h => resolveExt_congr (normalizeExt_eq_of_lower h), fun h => ?_⟩
  · apply resolveExt_congr
    rw [normalizeExt, stripDot_dot_append, normalizeExt, stripDot_of_no_dot h]
  · apply resolveExt_congr
    rw [normalizeExt_of_no_dot h]
    have h2 : (lowerStr e).data.head? ≠ some '.' := head?_no_dot_lowerStr h
    rw [normalizeExt_of_no_dot h2]
    exact congrArg String.mk (lowerData_idem e)

/-- Witness for C9 at concrete inputs: `.txt`, `TXT` and `txt` all
resolve identically. -/
theorem C9_normalization_before_lookup_witness :
    ResolveUTIsForExtension demoSys ".txt" = ResolveUTIsForExtension demoSys "txt" ∧
    ResolveUTIsForExtension demoSys "TXT" = ResolveUTIsForExtension demoSys "txt" ∧
    ResolveUTIsForExtension demoSys (normalizeExt "Txt") =
      ResolveUTIsForExtension demoSys "Txt" :=
  ⟨(C9_normalization_before_lookup demoSys "txt" "TXT" "txt").1 (by decide),
   (C9_normalization_before_lookup demoSys "txt" "TXT" "txt").2.1 (by decide),
   (C9_normalization_before_lookup demoSys "Txt" "TXT" "txt").2.2 (by decide)⟩

/-- Claim C8: the candidate lists underlying ListAppsForUTI and
ListAppsForScheme carry at most one entry per application path; each
retained candidate comes from an installed application and carries a
matching declaration of maximal handler rank, every matching declaration
earlier in declaration order having strictly smaller rank (first wins
among equal ranks). -/
theorem C8_dedup_best_declaration (sys : SysState) (uti scheme : String) :
    ((utiCandidates sys uti).map HandlerCandidate.path).Nodup ∧
    ((schemeCandidates sys scheme).map HandlerCandidate.path).Nodup ∧
    (∀ c ∈ utiCandidates sys uti, ∃ a ∈ sys.apps,
      c.name = a.info.name ∧ c.path = a.info.path ∧
      ∃ pre suf d, utiDeclsOf sys.conf uti a = pre ++ d :: suf ∧
        c.role = d.role ∧ c.handlerRank = d.handlerRank ∧
        (∀ d2 ∈ utiDeclsOf sys.conf uti a,
          rankVal d2.handlerRank ≤ rankVal d.handlerRank) ∧
        (∀ d2 ∈ pre, rankVal d2.handlerRank < rankVal d.handlerRank)) ∧
    (∀ c ∈ schemeCandidates sys scheme, ∃ a ∈ sys.apps,
      c.name = a.info.name ∧ c.path = a.info.path ∧
      ∃ pre suf d, schemeDeclsOf scheme a = pre ++ d :: suf ∧
        c.role = d.role ∧ c.handlerRank = d.handlerRank ∧
        (∀ d2 ∈ schemeDeclsOf scheme a,
          rankVal d2.handlerRank ≤ rankVal d.handlerRank) ∧
        (∀ d2 ∈ pre, rankVal d2.handlerRank < rankVal d.handlerRank)) :=
  ⟨nodup_path_sortedCandidates _ _, nodup_path_sortedCandidates _ _,
   fun _ hc => sorted_candidate_shape hc, fun _ hc => sorted_candidate_shape hc⟩

/-- Witness for C8 at a concrete input: the app at `/Applications/Bured.app`
declares `public.plain-text` twice (Alternate then Default); its single
retained candidate carries the Default-ranked declaration. -/
theorem C8_dedup_best_declaration_witness :
    ∃ a ∈ demoSys.apps,
      (⟨"Bured", "/Applications/Bured.app", "Editor", some .defaultRank⟩ :
          HandlerCandidate).name = a.info.name ∧
      (⟨"Bured", "/Applications/Bured.app", "Editor", some .defaultRank⟩ :
          HandlerCandidate).path = a.info.path ∧
      ∃ pre suf d,
        utiDeclsOf demoSys.conf "public.plain-text" a = pre ++ d :: suf ∧
        (⟨"Bured", "/Applications/Bured.app", "Editor", some .defaultRank⟩ :
            HandlerCandidate).role = d.role ∧
        (⟨"Bured", "/Applications/Bured.app", "Editor", some .defaultRank⟩ :
            HandlerCandidate).handlerRank = d.handlerRank ∧
        (∀ d2 ∈ utiDeclsOf demoSys.conf "public.plain-text" a,
          rankVal d2.handlerRank ≤ rankVal d.handlerRank) ∧
        (∀ d2 ∈ pre, rankVal d2.handlerRank < rankVal d.handlerRank) :=
  (C8_dedup_best_declaration demoSys "public.plain-text" "http").2.2.1
    ⟨"Bured", "/Applications/Bured.app", "Editor", some .defaultRank⟩ (by decide)

/-- Claim C10: BRIDGE_OK equals 0, the six failure codes are pairwise
distinct negative integers, and every public operation returns either
BRIDGE_OK (success) or one of those six codes, so the sign of the return
value decides success and the failure category is recoverable from the
value alone. -/
theorem C10_return_codes (sys : SysState) (w : RegOutcome) (app uti scheme ext : String) :
    BRIDGE_OK = 0 ∧
    errCodeList.Nodup ∧
    (BRIDGE_ERROR_INVALID_APP < 0 ∧ BRIDGE_ERROR_INVALID_UTI < 0 ∧
      BRIDGE_ERROR_INVALID_SCHEME < 0 ∧ BRIDGE_ERROR_SYSTEM < 0 ∧
      BRIDGE_ERROR_USER_DECLINED < 0 ∧ BRIDGE_ERROR_NOT_FOUND < 0) ∧
    codeSound (GetDefaultAppForUTI sys uti) ∧
    codeSound (GetDefaultAppForScheme sys scheme) ∧
    codeSound ((SetDefaultForUTI sys w app uti).1) ∧
    codeSound ((SetDefaultForScheme sys w app scheme).1) ∧
    codeSound (ResolveUTIsForExtension sys ext) ∧
    codeSound (GetExtensionsForUTI sys uti) ∧
    codeSound (ListAppsForUTI sys uti) ∧
    codeSound (ListAppsForScheme sys scheme) ∧
    codeSound (ListAllApplications sys) ∧
    codeSound (GetSupportedDocumentTypesForApp sys app) := by
  refine ⟨rfl, by decide, by decide, ?_, ?_, ?_, ?_, ?_, ?_, ?_, ?_, ?_, ?_⟩
  · unfold GetDefaultAppForUTI
    repeat' first
      | exact codeSound_ok _
      | exact codeSound_err (by decide) (by decide)
      | split
  · unfold GetDefaultAppForScheme
    repeat' first
      | exact codeSound_ok _
      | exact codeSound_err (by decide) (by decide)
      | split
  · unfold SetDefaultForUTI
    repeat' first
      | exact codeSound_ok _
      | exact codeSound_err (by decide) (by decide)
      | split
  · unfold SetDefaultForScheme
    repeat' first
      | exact codeSound_ok _
      | exact codeSound_err (by decide) (by decide)
      | split
  · unfold ResolveUTIsForExtension
    repeat' first
      | exact codeSound_ok _
      | exact codeSound_err (by decide) (by decide)
      | split
  · unfold GetExtensionsForUTI
    repeat' first
      | exact codeSound_ok _
      | exact codeSound_err (by decide) (by decide)
      | split
  · unfold ListAppsForUTI
    repeat' first
      | exact codeSound_ok _
      | exact codeSound_err (by decide) (by decide)
      | split
  · unfold ListAppsForScheme
    repeat' first
      | exact codeSound_ok _
      | exact codeSound_err (by decide) (by decide)
      | split
  · exact codeSound_ok _
  · unfold GetSupportedDocumentTypesForApp
    repeat' first
      | exact codeSound_ok _
      | exact codeSound_err (by decide) (by decide)
      | split

/-- Witness for C10 at a concrete input: the empty type identifier is
rejected with a code listed among the six declared failure codes. -/
theorem C10_return_codes_witness : BRIDGE_ERROR_INVALID_UTI ∈ errCodeList :=
  ((C10_return_codes demoSys .failed "/x" "" "s" "e").2.2.2.1).2
    BRIDGE_ERROR_INVALID_UTI (by decide)

end AppHandlers
